import Mathlib

/-!
Verification development for the vector-demo-component command language:
a shallow embedding of `src/utilities/InstructionParser.js`,
`src/utilities/Instruction.js` and the `InstructionRunner` (parser,
expression evaluator, broadcast arithmetic, property resolution and the
reactive dependency graph), together with theorems settling the frozen
claims about the parser and evaluator.

Modelling conventions:
* JavaScript numbers are modelled as exact rationals extended with a NaN
  element (`JSNum`).  Double rounding and the infinities are outside the
  model; every value exercised by the claims is a small integer, where
  doubles are exact.
* Mutable `Vec2` instances (from the external `wtc-math` package) are
  modelled as entries of a store (`List VecEntry`) addressed by allocation
  index, so object identity and in-place mutation are explicit.
* JavaScript exceptions are modelled with `Except String`; thrown errors
  carry the message text from the source.  State mutations performed
  before a throw persist, so stateful steps return the state alongside the
  `Except` result.
-/

/-- JavaScript number: an exact rational or NaN.  (Infinities and double
rounding are not modelled; no claim exercises them.) -/
inductive JSNum where
  | fin (q : ℚ)
  | nan
deriving DecidableEq, Repr

namespace JSNum

def add : JSNum → JSNum → JSNum
  | fin a, fin b => fin (a + b)
  | _, _ => nan

def sub : JSNum → JSNum → JSNum
  | fin a, fin b => fin (a - b)
  | _, _ => nan

def mul : JSNum → JSNum → JSNum
  | fin a, fin b => fin (a * b)
  | _, _ => nan

/-- JavaScript truthiness of a number: `0` and `NaN` are falsy. -/
def truthy : JSNum → Bool
  | fin q => q != 0
  | nan => false

end JSNum

/-! ### Character classes and string helpers

These model the regex character classes (`[a-zA-Z_]`, `\w`, `\s`, `\d`)
and the string primitives (`trim`, `split`) used by the parser, over
`List Char`. -/

/-- Regex `\s` / `String.prototype.trim` whitespace (ASCII fragment). -/
def isWs (c : Char) : Bool :=
  c == ' ' || c == '\t' || c == '\n' || c == '\r' || c == '\x0b' || c == '\x0c'

/-- Regex `[a-zA-Z_]`. -/
def isIdentStart (c : Char) : Bool :=
  (('a' ≤ c && c ≤ 'z') || ('A' ≤ c && c ≤ 'Z')) || c == '_'

/-- Regex `\d`. -/
def isDigitChar (c : Char) : Bool :=
  '0' ≤ c && c ≤ '9'

/-- Regex `\w`. -/
def isWordChar (c : Char) : Bool :=
  isIdentStart c || isDigitChar c

/-- Model of `String.prototype.trim` (ASCII whitespace). -/
def trimChars (cs : List Char) : List Char :=
  ((cs.dropWhile isWs).reverse.dropWhile isWs).reverse

def jsTrim (s : String) : String :=
  ⟨trimChars s.data⟩

/-- Model of `script.split('\n')`. -/
def splitNl : List Char → List (List Char)
  | [] => [[]]
  | '\n' :: rest => [] :: splitNl rest
  | c :: rest =>
    match splitNl rest with
    | [] => [[c]]
    | seg :: segs => (c :: seg) :: segs

/-- Worker for `splitCommaWs`.  The flag records whether the scan is
inside a delimiter (just after a comma, absorbing its trailing `\s*`);
the head of the result is the current segment's remaining suffix. -/
def splitCommaWsAux : Bool → List Char → List (List Char)
  | _, [] => [[]]
  | skip, c :: rest =>
    if skip && isWs c then splitCommaWsAux true rest
    else if c == ',' then [] :: splitCommaWsAux true rest
    else
      match splitCommaWsAux false rest with
      | [] => [[c]]
      | seg :: segs => (c :: seg) :: segs

/-- Model of `String.prototype.split(/,\s*/)`: each comma together with
the following maximal whitespace run is a delimiter. -/
def splitCommaWs (cs : List Char) : List (List Char) :=
  splitCommaWsAux false cs

/-- Worker for `splitWsRun`; the flag records whether the scan is
inside a whitespace delimiter run. -/
def splitWsRunAux : Bool → List Char → List (List Char)
  | _, [] => [[]]
  | skip, c :: rest =>
    if isWs c then
      if skip then splitWsRunAux true rest
      else [] :: splitWsRunAux true rest
    else
      match splitWsRunAux false rest with
      | [] => [[c]]
      | seg :: segs => (c :: seg) :: segs

/-- Model of `String.prototype.split(/\s+/)`: each maximal nonempty
whitespace run is a delimiter. -/
def splitWsRun (cs : List Char) : List (List Char) :=
  splitWsRunAux false cs

/-- Maximal identifier run at the head: regex `([a-zA-Z_]\w*)`.  Returns
the captured identifier and the remaining characters. -/
def takeIdent : List Char → Option (List Char × List Char)
  | [] => none
  | c :: rest =>
    if isIdentStart c then
      let w := rest.takeWhile isWordChar
      some (c :: w, rest.drop w.length)
    else none

/-- Regex `^[a-zA-Z_]\w*$` on a whole token. -/
def isIdentifier (s : String) : Bool :=
  match takeIdent s.data with
  | some (_, []) => true
  | _ => false

def digitsToNat (ds : List Char) : Nat :=
  ds.foldl (fun acc c => 10 * acc + (c.toNat - '0'.toNat)) 0

/-- Model of the JavaScript builtin `parseFloat`: skip leading
whitespace, optional sign, decimal digits with optional fraction and
exponent; trailing garbage is ignored; NaN when no digits can be read.
(The `Infinity` literal and double rounding are outside the model.) -/
def parseFloatC (cs0 : List Char) : JSNum :=
  let cs1 := cs0.dropWhile isWs
  let (sgn, cs2) : ℤ × List Char :=
    match cs1 with
    | '+' :: r => (1, r)
    | '-' :: r => (-1, r)
    | _ => (1, cs1)
  let intDigits := cs2.takeWhile isDigitChar
  let rest2 := cs2.drop intDigits.length
  let (fracDigits, rest3) : List Char × List Char :=
    match rest2 with
    | '.' :: r => (r.takeWhile isDigitChar, r.drop (r.takeWhile isDigitChar).length)
    | _ => ([], rest2)
  if intDigits.isEmpty && fracDigits.isEmpty then .nan
  else
    let mant : ℕ := digitsToNat (intDigits ++ fracDigits)
    let expVal : ℤ :=
      match rest3 with
      | e :: r =>
        if e == 'e' || e == 'E' then
          let (esgn, r2) : ℤ × List Char :=
            match r with
            | '+' :: r2 => (1, r2)
            | '-' :: r2 => (-1, r2)
            | _ => (1, r)
          let eds := r2.takeWhile isDigitChar
          if eds.isEmpty then 0 else esgn * (digitsToNat eds : ℤ)
        else 0
      | [] => 0
    let e : ℤ := expVal - (fracDigits.length : ℤ)
    .fin (mkRat (sgn * (mant : ℤ) * (10 : ℤ) ^ e.toNat) ((10 : ℕ) ^ (-e).toNat))

/-- Model of `String(num)` for the comparison inside `parseValue`.  Only
the integer case is rendered exactly; the branch is unreachable for
identifier-shaped input (such input never parses as a number), which is
the only place the comparison is made. -/
def jsNumToString : JSNum → String
  | .nan => "NaN"
  | .fin q => if q.den == 1 then toString q.num else toString q.num ++ "/" ++ toString q.den

/-! ### The typed AST (`Instruction.js` and the parser's expression nodes) -/

/-- Expression nodes produced by `InstructionParser.parseExpression` /
`parseValue`.  `num`/`str` are the raw JavaScript primitives returned by
`parseValue`; the remaining constructors carry the source `type` tags
`VariableReference`, `Function`, `Operation`, `VariableMethodCall` and
`VariablePropertyAccess`. -/
inductive Expr where
  | num (n : JSNum)
  | str (s : String)
  | ref (name : String)
  | func (name : String) (args : List Expr)
  | operation (operator : Char) (left right : Expr)
  | methodCall (varName method : String) (args : List Expr)
  | propAccess (varName property : String)

/-- JavaScript truthiness of a `parseValue` result (used by the
`.filter(a => a)` argument filters): `0`, `NaN` and `""` are falsy,
objects are truthy. -/
def exprTruthy : Expr → Bool
  | .num n => n.truthy
  | .str s => s != ""
  | _ => true

/-- Modifier nodes from `InstructionParser.parseModifiers`
(`PropertyFunction` and `Property` in the source). -/
inductive Modifier where
  | propertyFunction (name : String) (args : List Expr)
  | property (value : String)

/-- The `Instruction` class: a bag of fields plus the numeric `type`
code (`METHOD = 0`, `PROPERTY = 1`, `ASSIGNMENT = 2`).  The source field
`variable` is called `varName` here (`variable` is a Lean keyword);
`string` holds the original line. -/
structure Instruction where
  type : Nat
  varName : String := ""
  method : String := ""
  args : List Expr := []
  property : String := ""
  value : Option Expr := none
  modifiers : List Modifier := []
  string : String := ""

/-- `Object.values(Instruction.TYPE)`. -/
def instructionTypes : List Nat := [0, 1, 2]

/-- The `Instruction` constructor, which throws when `type` is not one
of the three codes. -/
def instructionNew (i : Instruction) : Except String Instruction :=
  if instructionTypes.contains i.type then .ok i
  else .error "Type must be one of 0,1,2"

namespace InstructionParser

/-! ### Line and expression matchers

Faithful models of the private regexes of `InstructionParser`.  All are
anchored (`^...$`); identifier groups `([a-zA-Z_]\w*)` are maximal runs
(backtracking cannot shorten them, since shortening leaves a word
character where the next literal is required). -/

/-- Regex `^([a-zA-Z_]\w*)\.([a-zA-Z_]\w*)\((.*)\)$` (both `#rMethod`
and `#rExprMethod`).  The greedy `(.*)\)$` forces the final character to
be `)`; group 3 is everything between the first `(` and that last `)`. -/
def matchMethod (cs : List Char) : Option (List Char × List Char × List Char) :=
  match takeIdent cs with
  | some (id1, '.' :: r2) =>
    match takeIdent r2 with
    | some (id2, '(' :: r4) =>
      if r4.getLast? == some ')' then some (id1, id2, r4.dropLast) else none
    | _ => none
  | _ => none

/-- Regex `^([a-zA-Z_]\w*)\.([a-zA-Z_]\w*)\s*=\s*(.*)$` (`#rProperty`). -/
def matchProperty (cs : List Char) : Option (List Char × List Char × List Char) :=
  match takeIdent cs with
  | some (id1, '.' :: r2) =>
    match takeIdent r2 with
    | some (id2, r3) =>
      match r3.dropWhile isWs with
      | '=' :: r4 => some (id1, id2, r4.dropWhile isWs)
      | _ => none
    | none => none
  | _ => none

/-- Regex `^([a-zA-Z_]\w*)\s*=\s*(.*)$` (`#rAssignment`). -/
def matchAssignment (cs : List Char) : Option (List Char × List Char) :=
  match takeIdent cs with
  | some (id1, r1) =>
    match r1.dropWhile isWs with
    | '=' :: r2 => some (id1, r2.dropWhile isWs)
    | _ => none
  | none => none

/-- Regex `^([a-zA-Z_]\w*)\((.*)\)$` (`#rExprFunction`, also the
`funcMatch` pattern of `parseModifiers`). -/
def matchExprFunction (cs : List Char) : Option (List Char × List Char) :=
  match takeIdent cs with
  | some (name, '(' :: r) =>
    if r.getLast? == some ')' then some (name, r.dropLast) else none
  | _ => none

/-- Regex `^([a-zA-Z_]\w*)\.([a-zA-Z_]\w*)$` (`#rExprPropAccess`). -/
def matchExprPropAccess (cs : List Char) : Option (List Char × List Char) :=
  match takeIdent cs with
  | some (id1, '.' :: r2) =>
    match takeIdent r2 with
    | some (id2, []) => some (id1, id2)
    | _ => none
  | _ => none

def isOpChar (c : Char) : Bool :=
  c == '+' || c == '-' || c == '*' || c == '/'

/-- Scan for the operator split of `#rExprOp`.  `acc` is the reversed
prefix before the current position; the scan starts at index 1 of the
body, so the lazy group 1 `(.+?)` is nonempty.  Group 3 `(.+?)` only
needs one remaining character (which may be whitespace — the trailing
`\s*$` backtracks), hence the `rest ≠ []` condition. -/
def opScanAux : List Char → List Char → Option (List Char × Char × List Char)
  | _, [] => none
  | acc, c :: rest =>
    if isOpChar c && rest != [] then some (acc.reverse, c, rest)
    else opScanAux (c :: acc) rest

/-- Regex `^\s*(.+?)\s*([+\-*/])\s*(.+?)\s*$` (`#rExprOp`), returning
the three groups after the `.trim()` the source applies to them.  The
lazy group 1 makes the *first* viable operator occurrence the split
point.  When the only viable operator is the first non-whitespace
character, backtracking shortens the leading `\s*` so that group 1 is a
whitespace character (trimmed to `""`). -/
def opSplit (cs : List Char) : Option (List Char × Char × List Char) :=
  let ws := cs.takeWhile isWs
  let body := cs.drop ws.length
  match body with
  | [] => none
  | b0 :: rest0 =>
    match opScanAux [b0] rest0 with
    | some (l, c, r) => some (trimChars l, c, trimChars r)
    | none =>
      if ws != [] && isOpChar b0 && rest0 != [] then
        some ([], b0, trimChars rest0)
      else none

/-- `InstructionParser.parseValue(valueStr, returnRefs)`. -/
def parseValue (valueStr : String) (returnRefs : Bool) : Expr :=
  let num := parseFloatC valueStr.data
  let numTail : Expr :=
    match num with
    | .fin _ => .num num
    | .nan => .str valueStr
  if isIdentifier valueStr then
    if (match num with
        | .nan => false
        | .fin _ => jsNumToString num == valueStr) then .num num
    else if returnRefs then .ref valueStr
    else numTail
  else numTail

/-- Function-call argument list:
`argsStr.split(/,\s*/).map(a => a.trim()).filter(a => a.length > 0)`
then `parseValue` on each. -/
def parseArgsFunction (argsStr : List Char) : List Expr :=
  (((splitCommaWs argsStr).map trimChars).filter (fun a => a.length > 0)).map
    (fun arg => parseValue ⟨arg⟩ true)

/-- Method-call argument list:
`argStr.split(/,\s*/).map(a => parseValue(a.trim())).filter(a => a)`
(truthiness filter on the parsed values). -/
def parseArgsTruthy (argStr : List Char) : List Expr :=
  ((splitCommaWs argStr).map (fun a => parseValue ⟨trimChars a⟩ true)).filter exprTruthy

/-- `InstructionParser.parseExpression`, with a fuel parameter for the
recursion on sub-strings of the operator split.  Both operands of a
split are strictly shorter than the input, so `length + 1` fuel (see
`parseExpressionTop`) never runs out; the fuel-exhaustion branch is
unreachable. -/
def parseExpression : Nat → String → Expr
  | 0, expression => .str expression
  | fuel + 1, expression =>
    let e := trimChars expression.data
    match matchExprFunction e with
    | some (name, argsStr) => .func ⟨name⟩ (parseArgsFunction argsStr)
    | none =>
      match opSplit e with
      | some (l, operator, r) =>
        .operation operator (parseExpression fuel ⟨l⟩) (parseExpression fuel ⟨r⟩)
      | none =>
        match matchMethod e with
        | some (v, m, argStr) => .methodCall ⟨v⟩ ⟨m⟩ (parseArgsTruthy argStr)
        | none =>
          match matchExprPropAccess e with
          | some (v, p) => .propAccess ⟨v⟩ ⟨p⟩
          | none => parseValue ⟨e⟩ true

def parseExpressionTop (s : String) : Expr :=
  parseExpression (s.length + 1) s

/-- `InstructionParser.splitExpression`: cut at the first comma at
parenthesis-nesting depth zero. -/
def findSplitIndex : List Char → ℤ → Nat → Option Nat
  | [], _, _ => none
  | c :: rest, depth, i =>
    if c == '(' then findSplitIndex rest (depth + 1) (i + 1)
    else if c == ')' then findSplitIndex rest (depth - 1) (i + 1)
    else if c == ',' && depth == 0 then some i
    else findSplitIndex rest depth (i + 1)

def splitExpression (definitionStr : String) : String × String :=
  let cs := definitionStr.data
  match findSplitIndex cs 0 0 with
  | some i => (⟨trimChars (cs.take i)⟩, ⟨trimChars (cs.drop (i + 1))⟩)
  | none => (⟨trimChars cs⟩, "")

/-- One modifier token.  The colon form is tried first; then the
function form (where the source calls `parseExpression`, which on a
`funcMatch`-shaped token always takes its `Function` branch — checked
first with the identical regex — and is then relabelled
`PropertyFunction`); otherwise a plain `Property` token. -/
def parseModifierToken (token : List Char) : Modifier :=
  let t := trimChars token
  match (match takeIdent t with
         | some (key, r1) =>
           match r1.dropWhile isWs with
           | ':' :: r2 => some (key, r2.dropWhile isWs)
           | _ => none
         | none => none : Option (List Char × List Char)) with
  | some (key, rest) =>
    let valuesStr := trimChars rest
    let args := (splitWsRun valuesStr).map (fun v => parseValue ⟨v⟩ true)
    .propertyFunction ⟨key⟩ args
  | none =>
    match matchExprFunction t with
    | some (name, argsStr) => .propertyFunction ⟨name⟩ (parseArgsFunction argsStr)
    | none => .property ⟨t⟩

/-- `InstructionParser.parseModifiers`: empty string short-circuits,
then a plain `split(/,\s*/)` — *not* the depth-aware `splitExpression`
logic — and a per-token parse. -/
def parseModifiers (modifiersStr : String) : List Modifier :=
  if modifiersStr == "" then []
  else
    ((splitCommaWs modifiersStr.data).filter (fun m => m.length > 0)).map
      parseModifierToken

/-- `InstructionParser.parseLine`: method call, then property
modification, then assignment; `ok none` when no shape matches (the
source falls off the end and returns `undefined`).  The only throwing
step is the `Instruction` constructor's type check. -/
def parseLineE (line : String) : Except String (Option Instruction) :=
  let cs := line.data
  match matchMethod cs with
  | some (v, m, argStr) =>
    let args := parseArgsTruthy (trimChars argStr)
    match instructionNew
        { type := 0, varName := ⟨v⟩, method := ⟨m⟩, args := args, string := line } with
    | .ok i => .ok (some i)
    | .error e => .error e
  | none =>
    match matchProperty cs with
    | some (v, p, valueStr) =>
      let value := parseValue ⟨trimChars valueStr⟩ true
      match instructionNew
          { type := 1, varName := ⟨v⟩, property := ⟨p⟩, value := some value,
            string := line } with
      | .ok i => .ok (some i)
      | .error e => .error e
    | none =>
      match matchAssignment cs with
      | some (v, definitionStr) =>
        let (mainExpression, modifiersStr) := splitExpression ⟨definitionStr⟩
        let value := parseExpressionTop mainExpression
        let modifiers := parseModifiers modifiersStr
        match instructionNew
            { type := 2, varName := ⟨v⟩, value := some value,
              modifiers := modifiers, string := line } with
        | .ok i => .ok (some i)
        | .error e => .error e
      | none => .ok none

structure ParseResult where
  commands : List Instruction
  log : List String

def lineErr (n : Nat) (line msg : String) : String :=
  "Line " ++ toString n ++ ": `" ++ line ++ "` failed. Error: " ++ msg

def startsWithComment (l : String) : Bool :=
  match l.data with
  | '/' :: '/' :: _ => true
  | _ => false

/-- The line preprocessing of `parse`: split on `'\n'`, trim, drop
blank lines and `//` comment lines. -/
def filteredLines (script : String) : List String :=
  ((splitNl script.data).map (fun cs => jsTrim ⟨cs⟩)).filter
    (fun l => l != "" && !(startsWithComment l))

/-- The `lines.forEach` loop of `parse` with its per-line `try/catch`:
a parsed command is appended to `commands`, a thrown line appends a
formatted entry to `log` and parsing continues. -/
def parseGo : List String → Nat → List Instruction → List String → ParseResult
  | [], _, commands, log => ⟨commands, log⟩
  | line :: rest, i, commands, log =>
    match parseLineE line with
    | .ok (some c) => parseGo rest (i + 1) (commands ++ [c]) log
    | .ok none => parseGo rest (i + 1) commands log
    | .error m => parseGo rest (i + 1) commands (log ++ [lineErr (i + 1) line m])

/-- `InstructionParser.parse`. -/
def parse (script : String) : ParseResult :=
  parseGo (filteredLines script) 0 [] []

end InstructionParser

/-! ### Runtime values and the vector store

`Vec2` instances from the external `wtc-math` package are mutable
objects; the embedding gives each one a slot in `RunState.vecs`
addressed by its allocation index, so identity (`RVal.vec id`) and
in-place mutation are explicit.  The arithmetic helpers below model the
`wtc-math` methods the runner itself calls (`addNew`, `addScalarNew`,
`subtractNew`, `subtractScalarNew`, `multiplyNew`, `scaleNew`, `scale`,
`reset`); each `*New` method allocates a fresh instance. -/

/-- A runtime value: number, string, `Vec2` instance (by store index)
or `undefined`. -/
inductive RVal where
  | num (n : JSNum)
  | str (s : String)
  | vec (id : Nat)
  | undef
deriving DecidableEq, Repr

/-- JavaScript truthiness of a runtime value. -/
def RVal.truthy : RVal → Bool
  | .num n => n.truthy
  | .str s => s != ""
  | .vec _ => true
  | .undef => false

/-- Coercion of a runtime value used as a scalar argument of a
`wtc-math` operation.  The external arithmetic turns non-numbers into
NaN components; the JavaScript `ToNumber` of numeric *strings* (never
produced for a scalar position by this interpreter's own evaluation of
claim scripts) is abstracted to NaN. -/
def RVal.toScalar : RVal → JSNum
  | .num n => n
  | _ => .nan

/-- The `_sourceOperation` record attached to a vector produced by an
`Operation`: the operator, the two captured operand *values* and the
identity of the result vector.  The closure's captured `isVecLeft` /
`isVecRight` booleans equal the vector-ness of the captured operands,
so they are derived from `a`/`b` rather than stored twice. -/
structure SourceOp where
  operator : Char
  a : RVal
  b : RVal
  resultId : Nat
deriving DecidableEq, Repr

/-- One `Vec2` instance: components plus the expando properties JS can
attach to the object (`_sourceOperation`, and any field written by a
PropertyModification instruction). -/
structure VecEntry where
  x : JSNum
  y : JSNum
  sourceOp : Option SourceOp := none
  props : List (String × RVal) := []
deriving DecidableEq, Repr

/-- Resolved modifier properties (`parseProperties` result). -/
structure Props where
  color : Option String := none
  interactive : Bool := false
  reference : Bool := false
  origin : Option RVal := none
deriving DecidableEq, Repr

/-- One entry of the variable environment:
`{ value, properties, instruction }`. -/
structure VarEntry where
  value : RVal
  properties : Props
  instruction : Instruction

/-- The `InstructionRunner` state: the vector store, the variable
environment `vars` (the source field `variables`, a Lean keyword; an
insertion-ordered map), the `derivedVectors` dependency graph (operand
vector id → result vector ids) and the execution error log. -/
structure RunState where
  vecs : List VecEntry := []
  vars : List (String × VarEntry) := []
  derivedVectors : List (Nat × List Nat) := []
  errors : List String := []

def getVec (st : RunState) (id : Nat) : Option VecEntry :=
  st.vecs[id]?

def getComponents (st : RunState) (id : Nat) : Option (JSNum × JSNum) :=
  (getVec st id).map (fun e => (e.x, e.y))

/-- Component reads used by the arithmetic helpers.  Every id produced
by the interpreter is a valid index; the NaN default is never hit. -/
def vecX (st : RunState) (id : Nat) : JSNum :=
  ((getVec st id).map VecEntry.x).getD .nan

def vecY (st : RunState) (id : Nat) : JSNum :=
  ((getVec st id).map VecEntry.y).getD .nan

/-- Allocate a fresh `Vec2` (a `new Vec2(x, y)` with numeric
components); returns the new store and the instance's identity. -/
def pushVec (st : RunState) (x y : JSNum) : RunState × Nat :=
  ({ st with vecs := st.vecs ++ [{ x := x, y := y }] }, st.vecs.length)

def modifyVec (st : RunState) (id : Nat) (f : VecEntry → VecEntry) : RunState :=
  { st with
    vecs := match st.vecs[id]? with
      | some e => st.vecs.set id (f e)
      | none => st.vecs }

/-- `a.addNew(b)`. -/
def vecAddNew (st : RunState) (ia ib : Nat) : RunState × Nat :=
  pushVec st ((vecX st ia).add (vecX st ib)) ((vecY st ia).add (vecY st ib))

/-- `a.subtractNew(b)`. -/
def vecSubtractNew (st : RunState) (ia ib : Nat) : RunState × Nat :=
  pushVec st ((vecX st ia).sub (vecX st ib)) ((vecY st ia).sub (vecY st ib))

/-- `a.multiplyNew(b)` (component-wise product). -/
def vecMultiplyNew (st : RunState) (ia ib : Nat) : RunState × Nat :=
  pushVec st ((vecX st ia).mul (vecX st ib)) ((vecY st ia).mul (vecY st ib))

/-- `v.addScalarNew(s)`. -/
def vecAddScalarNew (st : RunState) (id : Nat) (s : JSNum) : RunState × Nat :=
  pushVec st ((vecX st id).add s) ((vecY st id).add s)

/-- `v.subtractScalarNew(s)`. -/
def vecSubtractScalarNew (st : RunState) (id : Nat) (s : JSNum) : RunState × Nat :=
  pushVec st ((vecX st id).sub s) ((vecY st id).sub s)

/-- `v.scaleNew(s)`. -/
def vecScaleNew (st : RunState) (id : Nat) (s : JSNum) : RunState × Nat :=
  pushVec st ((vecX st id).mul s) ((vecY st id).mul s)

/-- `v.scale(s)`: in-place scaling (mutates, keeps identity). -/
def vecScale (st : RunState) (id : Nat) (s : JSNum) : RunState :=
  modifyVec st id (fun e => { e with x := e.x.mul s, y := e.y.mul s })

/-- `v.reset(x, y)`: in-place component update (mutates, keeps identity
and expando properties). -/
def vecReset (st : RunState) (id : Nat) (x y : JSNum) : RunState :=
  modifyVec st id (fun e => { e with x := x, y := y })

/-- The in-place component writes the interaction layer performs on a
dragged vector (`vector.x = …; vector.y = …` in `handleMouseMove`). -/
def setVecComponents (st : RunState) (id : Nat) (x y : JSNum) : RunState :=
  modifyVec st id (fun e => { e with x := x, y := y })

def sourceOpOf (st : RunState) (id : Nat) : Option SourceOp :=
  (getVec st id).bind VecEntry.sourceOp

def lookupVarEntry (st : RunState) (name : String) : Option VarEntry :=
  (st.vars.find? (fun p => p.1 == name)).map Prod.snd

def lookupVar (st : RunState) (name : String) : Option RVal :=
  (lookupVarEntry st name).map VarEntry.value

/-- `this.variables[name] = entry`: overwriting keeps the key's
insertion position, a fresh key is appended. -/
def setVar (st : RunState) (name : String) (e : VarEntry) : RunState :=
  { st with
    vars :=
      if (st.vars.find? (fun p => p.1 == name)).isSome then
        st.vars.map (fun p => if p.1 == name then (name, e) else p)
      else st.vars ++ [(name, e)] }

/-- `derivedVectors.get(operand).add(result)` with the
`if (!has) set(new Set())` initialisation. -/
def addDerivedEdge (st : RunState) (operandId resultId : Nat) : RunState :=
  { st with
    derivedVectors :=
      if (st.derivedVectors.find? (fun p => p.1 == operandId)).isSome then
        st.derivedVectors.map (fun p =>
          if p.1 == operandId then
            (p.1, if p.2.contains resultId then p.2 else p.2 ++ [resultId])
          else p)
      else st.derivedVectors ++ [(operandId, [resultId])] }

def addEdgeIfVec (st : RunState) (v : RVal) (resultId : Nat) : RunState :=
  match v with
  | .vec i => addDerivedEdge st i resultId
  | _ => st

/-! ### Scalar JavaScript arithmetic (the `a + b` / `a - b` / `a * b`
fallbacks when neither operand is a `Vec2`). -/

/-- JavaScript `String(v)` for the primitives the evaluator can hold.
Number formatting beyond the integer case and object stringification
are abstracted (unreached by the claims). -/
def jsToString : RVal → String
  | .num n => jsNumToString n
  | .str s => s
  | .undef => "undefined"
  | .vec _ => "[object Object]"

/-- JavaScript `+` on non-`Vec2` operands: numeric addition, or string
concatenation when either side is a string.  `ToNumber` of a string in
the remaining coercions is abstracted to NaN (numeric strings never
reach a scalar position in the claim scripts). -/
def jsAdd : RVal → RVal → RVal
  | .str a, b => .str (a ++ jsToString b)
  | a, .str b => .str (jsToString a ++ b)
  | .num a, .num b => .num (a.add b)
  | _, _ => .num .nan

def jsSub : RVal → RVal → RVal
  | .num a, .num b => .num (a.sub b)
  | _, _ => .num .nan

def jsMul : RVal → RVal → RVal
  | .num a, .num b => .num (a.mul b)
  | _, _ => .num .nan

namespace InstructionRunner

/-- The `Operation` case of `evaluateExpression`, after both operands
have been evaluated to `a` and `b`: the operator switch with its
broadcast rules, the attachment of the `_sourceOperation` record when
the result is a vector, and the registration of the dependency edges.
A stateful step returns the state alongside the `Except` result, so
mutations made before a throw persist (as in JS). -/
def evalOperation (st : RunState) (operator : Char) (a b : RVal) :
    (Except String RVal) × RunState :=
  let computed : (Except String RVal) × RunState :=
    if operator == '+' then
      match a, b with
      | .vec ia, .vec ib =>
        let (st', r) := vecAddNew st ia ib
        (.ok (.vec r), st')
      | .vec ia, _ =>
        let (st', r) := vecAddScalarNew st ia b.toScalar
        (.ok (.vec r), st')
      | _, .vec ib =>
        let (st', r) := vecAddScalarNew st ib a.toScalar
        (.ok (.vec r), st')
      | _, _ => (.ok (jsAdd a b), st)
    else if operator == '-' then
      match a, b with
      | .vec ia, .vec ib =>
        let (st', r) := vecSubtractNew st ia ib
        (.ok (.vec r), st')
      | .vec ia, _ =>
        let (st', r) := vecSubtractScalarNew st ia b.toScalar
        (.ok (.vec r), st')
      | _, .vec ib =>
        -- new Vec2(a, a).scale(-1).addNew(b)
        let (st1, t) := pushVec st a.toScalar a.toScalar
        let st2 := vecScale st1 t (.fin (-1))
        let (st3, r) := vecAddNew st2 t ib
        (.ok (.vec r), st3)
      | _, _ => (.ok (jsSub a b), st)
    else if operator == '*' then
      match a, b with
      | .vec ia, .vec ib =>
        let (st', r) := vecMultiplyNew st ia ib
        (.ok (.vec r), st')
      | .vec ia, _ =>
        let (st', r) := vecScaleNew st ia b.toScalar
        (.ok (.vec r), st')
      | _, .vec ib =>
        let (st', r) := vecScaleNew st ib a.toScalar
        (.ok (.vec r), st')
      | _, _ => (.ok (jsMul a b), st)
    else (.error ("Unrecognised operator: " ++ String.mk [operator]), st)
  match computed with
  | (.ok (.vec rid), st') =>
    -- store operation information for references, then track vector
    -- operands for reactive updates
    let st'' := modifyVec st' rid (fun e =>
      { e with sourceOp := some { operator := operator, a := a, b := b, resultId := rid } })
    let st3 := addEdgeIfVec st'' a rid
    let st4 := addEdgeIfVec st3 b rid
    (.ok (.vec rid), st4)
  | other => other

/-- Property read for `VariablePropertyAccess` (`targetObject?.[p]`,
`undefined` → "not found").  Vector `x`/`y` fields and expando
properties are modelled; prototype getters of the external value types
(e.g. the irrational-valued `wtc-math` `length`) are outside the model
and no claim reaches them. -/
def readProperty (st : RunState) (v : RVal) (property : String) : Option RVal :=
  match v with
  | .vec id =>
    if property == "x" then (getVec st id).map (fun e => RVal.num e.x)
    else if property == "y" then (getVec st id).map (fun e => RVal.num e.y)
    else
      match getVec st id with
      | some e => (e.props.find? (fun p => p.1 == property)).map Prod.snd
      | none => none
  | _ => none

/-- Components passed to `new Vec2(...resolvedArgs)`: the external
constructor is modelled for numeric arguments (the only case the claim
scripts produce); other shapes yield NaN components. -/
def vecCtorArg (vs : List RVal) (i : Nat) : JSNum :=
  match vs[i]? with
  | some (.num n) => n
  | _ => .nan

mutual

/-- `InstructionRunner.evaluateExpression`.  The source's re-entry
through a synthesized `VariableReference` node (for method calls and
property accesses) is inlined as the same environment lookup.  The
external `wtc-math` method set is out of the modelled scope (spec §1),
so the `typeof targetObject[method] === 'function'` test is modelled as
always failing; no claim evaluates a `VariableMethodCall`. -/
def evaluateExpression (st : RunState) : Expr → (Except String RVal) × RunState
  | .num n => (.ok (.num n), st)
  | .str s => (.ok (.str s), st)
  | .ref name =>
    match lookupVarEntry st name with
    | some e => (.ok e.value, st)
    | none => (.error ("Variable '" ++ name ++ "' is not defined."), st)
  | .func name args =>
    match evaluateArgs st args with
    | (.error m, st') => (.error m, st')
    | (.ok vs, st') =>
      if name == "Vec2" then
        let (st'', id) := pushVec st' (vecCtorArg vs 0) (vecCtorArg vs 1)
        (.ok (.vec id), st'')
      else (.error ("Unrecognised function call: " ++ name), st')
  | .operation operator left right =>
    match evaluateExpression st left with
    | (.error m, st') => (.error m, st')
    | (.ok a, st1) =>
      match evaluateExpression st1 right with
      | (.error m, st') => (.error m, st')
      | (.ok b, st2) => evalOperation st2 operator a b
  | .methodCall varName method _args =>
    match lookupVarEntry st varName with
    | none => (.error ("Variable '" ++ varName ++ "' is not defined."), st)
    | some _ =>
      (.error ("Method '" ++ method ++ "' not found on variable '" ++ varName ++ "'"), st)
  | .propAccess varName property =>
    match lookupVarEntry st varName with
    | none => (.error ("Variable '" ++ varName ++ "' is not defined."), st)
    | some e =>
      match readProperty st e.value property with
      | some v => (.ok v, st)
      | none =>
        (.error ("Property '" ++ property ++ "' not found on variable '" ++ varName ++ "'"),
         st)

/-- `args.map(arg => this.evaluateExpression(arg))`, left to right,
propagating a throw (with the mutations made so far). -/
def evaluateArgs (st : RunState) : List Expr → (Except String (List RVal)) × RunState
  | [] => (.ok [], st)
  | e :: es =>
    match evaluateExpression st e with
    | (.error m, st') => (.error m, st')
    | (.ok v, st1) =>
      match evaluateArgs st1 es with
      | (.error m, st') => (.error m, st')
      | (.ok vs, st2) => (.ok (v :: vs), st2)

end

end InstructionRunner

/-- The `recompute` closure stored in a `_sourceOperation` record:
re-apply the operator's rule to the *current* values of the captured
operands and `reset` the existing result vector in place.  The closure
has no default branch: a combination outside the three operators with a
vector operand would leave `r` undefined and make `result.reset(...r)`
throw; such a record is never attached, so the error case is
unreachable. -/
def SourceOp.recompute (op : SourceOp) (st : RunState) : Except String RunState :=
  let r : Option (RunState × Nat) :=
    if op.operator == '+' then
      match op.a, op.b with
      | .vec ia, .vec ib => some (vecAddNew st ia ib)
      | .vec ia, b => some (vecAddScalarNew st ia b.toScalar)
      | a, .vec ib => some (vecAddScalarNew st ib a.toScalar)
      | _, _ => none
    else if op.operator == '-' then
      match op.a, op.b with
      | .vec ia, .vec ib => some (vecSubtractNew st ia ib)
      | .vec ia, b => some (vecSubtractScalarNew st ia b.toScalar)
      | a, .vec ib => some (vecSubtractScalarNew st ib a.toScalar)
      | _, _ => none
    else if op.operator == '*' then
      match op.a, op.b with
      | .vec ia, .vec ib => some (vecMultiplyNew st ia ib)
      | .vec ia, b => some (vecScaleNew st ia b.toScalar)
      | a, .vec ib => some (vecScaleNew st ib a.toScalar)
      | _, _ => none
    else none
  match r with
  | some (st', rid) => .ok (vecReset st' op.resultId (vecX st' rid) (vecY st' rid))
  | none => .error "undefined is not iterable"

namespace InstructionRunner

/-- `#` test of the modifier flag resolution. -/
def startsWithHash (s : String) : Bool :=
  match s.data with
  | '#' :: _ => true
  | _ => false

/-- `InstructionRunner.parseProperties`: fold the modifier list into a
`Props` record.  `origin` evaluates its arguments; a single vector
argument is used by reference, otherwise a fresh vector is constructed
from the evaluated arguments.  Unknown property functions throw;
unknown flags only `console.warn`. -/
def parsePropertiesGo (st : RunState) (acc : Props) :
    List Modifier → (Except String Props) × RunState
  | [] => (.ok acc, st)
  | m :: rest =>
    match m with
    | .propertyFunction name args =>
      if name == "origin" then
        match evaluateArgs st args with
        | (.error e, st') => (.error e, st')
        | (.ok vs, st1) =>
          match vs with
          | [RVal.vec id] =>
            parsePropertiesGo st1 { acc with origin := some (.vec id) } rest
          | _ =>
            let (st2, nid) := pushVec st1 (vecCtorArg vs 0) (vecCtorArg vs 1)
            parsePropertiesGo st2 { acc with origin := some (.vec nid) } rest
      else (.error ("Unrecognised property function: " ++ name), st)
    | .property value =>
      if startsWithHash value then
        parsePropertiesGo st { acc with color := some value } rest
      else if value == "interactive" then
        parsePropertiesGo st { acc with interactive := true } rest
      else if value == "reference" then
        parsePropertiesGo st { acc with reference := true } rest
      else
        parsePropertiesGo st acc rest

def parseProperties (st : RunState) (modifiers : List Modifier) :
    (Except String Props) × RunState :=
  parsePropertiesGo st {} modifiers

/-- `targetObject[property] = resolvedValue` on the target's value.
Vector `x`/`y` writes update the components (coerced like the external
setters; the claim scripts only write numbers); any other name becomes
an expando property.  Property creation on a primitive throws in strict
mode (these files are ES modules); the engine message is abbreviated. -/
def setObjectProperty (st : RunState) (target : RVal) (property : String) (v : RVal) :
    (Except String Unit) × RunState :=
  match target with
  | .vec id =>
    if property == "x" then
      (.ok (), modifyVec st id (fun e => { e with x := v.toScalar }))
    else if property == "y" then
      (.ok (), modifyVec st id (fun e => { e with y := v.toScalar }))
    else
      (.ok (), modifyVec st id (fun e =>
        { e with
          props :=
            if (e.props.find? (fun p => p.1 == property)).isSome then
              e.props.map (fun p => if p.1 == property then (property, v) else p)
            else e.props ++ [(property, v)] }))
  | _ => (.error ("Cannot create property '" ++ property ++ "'"), st)

/-- `InstructionRunner.executePropertyModification`.  The source reads
`this.variables[variable].value` *before* its `if (!targetObject)`
guard, so a missing variable throws the engine's TypeError for a
property read on `undefined`, not the guard's message; the guard's own
message only fires for a variable bound to a falsy value. -/
def executePropertyModification (st : RunState) (ins : Instruction) :
    (Except String Unit) × RunState :=
  match lookupVarEntry st ins.varName with
  | none => (.error "Cannot read properties of undefined (reading 'value')", st)
  | some entry =>
    if !entry.value.truthy then
      (.error ("Variable '" ++ ins.varName ++ "' is not defined."), st)
    else
      match (match ins.value with
             | some e => evaluateExpression st e
             | none => (.ok .undef, st)) with
      | (.error m, st') => (.error m, st')
      | (.ok rv, st1) => setObjectProperty st1 entry.value ins.property rv

/-- `InstructionRunner.executeMethodCall`: same premature dereference
as `executePropertyModification`; the external method table is modelled
as empty (wtc-math is outside the modelled scope), so the `typeof`
check always fails with "Method not found". -/
def executeMethodCall (st : RunState) (ins : Instruction) :
    (Except String Unit) × RunState :=
  match lookupVarEntry st ins.varName with
  | none => (.error "Cannot read properties of undefined (reading 'value')", st)
  | some entry =>
    if !entry.value.truthy then
      (.error ("Variable '" ++ ins.varName ++ "' is not defined."), st)
    else
      (.error ("Method '" ++ ins.method ++ "' not found on variable '" ++ ins.varName ++ "'"),
       st)

/-- One iteration of the `commands.forEach` loop of
`InstructionRunner.run`: dispatch on the instruction type; a throw is
caught and logged as `Error: <line> - <message>`, keeping the mutations
made before the throw, and execution continues. -/
def runInstr (st : RunState) (ins : Instruction) : RunState :=
  let step : (Except String Unit) × RunState :=
    match ins.type with
    | 0 => executeMethodCall st ins
    | 1 => executePropertyModification st ins
    | 2 =>
      match (match ins.value with
             | some e => evaluateExpression st e
             | none => (.ok .undef, st)) with
      | (.error m, st') => (.error m, st')
      | (.ok value, st1) =>
        match parseProperties st1 ins.modifiers with
        | (.error m, st') => (.error m, st')
        | (.ok properties, st2) =>
          (.ok (), setVar st2 ins.varName
            { value := value, properties := properties, instruction := ins })
    | _ => (.error "Unrecognised instruction type.", st)
  match step with
  | (.ok _, st') => st'
  | (.error m, st') =>
    { st' with errors := st'.errors ++ ["Error: " ++ ins.string ++ " - " ++ m] }

/-- `InstructionRunner.run`: fresh state, then the instruction loop. -/
def run (commands : List Instruction) : RunState :=
  commands.foldl runInstr {}

/-- The static `InstructionRunner.parse`: parse the script and run the
resulting commands. -/
def runScript (script : String) : RunState :=
  run (InstructionParser.parse script).commands

end InstructionRunner

/-! ### Claim theorems

Concrete scripts are run through the full embedded pipeline
(`InstructionParser.parse` then `InstructionRunner.run`).  Batteries
marks the `Rat` arithmetic irreducible; it is restored to semireducible
locally so that `decide` can evaluate the interpreter. -/

section ClaimTheorems

attribute [local semireducible] Rat.add Rat.sub Rat.mul

open InstructionParser InstructionRunner

/-- The two-line script of the reactive-recompute scenario. -/
def c1Run : RunState :=
  runScript "a = Vec2(1,1), interactive\nd = a * 2, reference"

/-- The external drag: the interaction layer writes the components of
the vector bound to `a` (store id 0) in place, making them `(3,3)`. -/
def c1Dragged : RunState :=
  setVecComponents c1Run 0 (.fin 3) (.fin 3)

/-- Invoking the recompute closure stored on the source-operation
record of `d`'s vector (store id 1). -/
def c1Recomputed : Except String RunState :=
  match sourceOpOf c1Dragged 1 with
  | some op => op.recompute c1Dragged
  | none => .error "no source-operation record"

def c1Final : RunState :=
  match c1Recomputed with
  | .ok st => st
  | .error _ => c1Dragged

/-- Claim C1 (confirmed): after `a = Vec2(1,1), interactive` and
`d = a * 2, reference`, mutating `a`'s vector in place to `(3,3)` and
invoking the recompute closure stored on `d`'s source-operation record
updates the very same vector instance bound to `d` to `(6,6)`: the
recompute succeeds, the variable environment is unchanged (no new entry
for `d`), `d` is still bound to the same vector identity (store id 1),
and that instance's components are now `(6,6)`. -/
theorem claim1_reactive_recompute :
    lookupVar c1Run "a" = some (.vec 0) ∧
    lookupVar c1Run "d" = some (.vec 1) ∧
    (lookupVarEntry c1Run "a").map (fun e => e.properties.interactive) = some true ∧
    (lookupVarEntry c1Run "d").map (fun e => e.properties.reference) = some true ∧
    getComponents c1Run 1 = some (.fin 2, .fin 2) ∧
    getComponents c1Dragged 0 = some (.fin 3, .fin 3) ∧
    c1Recomputed = .ok c1Final ∧
    c1Final.vars = c1Run.vars ∧
    lookupVar c1Final "d" = some (.vec 1) ∧
    getComponents c1Final 1 = some (.fin 6, .fin 6) :=
  ⟨by decide, by decide, by decide, by decide, by decide, by decide,
   rfl, rfl, by decide, by decide⟩

def c3Run : RunState :=
  runScript "a = Vec2(5,8)\nb = Vec2(1,10)\nd = a - b\ne = 2 * a\nf = a + 3"

/-- Claim C3 (confirmed): with `a = Vec2(5,8)` and `b = Vec2(1,10)`,
the assignment `d = a - b` evaluates to the vector `(4, -2)`,
`e = 2 * a` to `(10, 16)` and `f = a + 3` to `(8, 11)`; the run
produces no errors. -/
theorem claim3_broadcast_correctness :
    lookupVar c3Run "d" = some (.vec 2) ∧
    getComponents c3Run 2 = some (.fin 4, .fin (-2)) ∧
    lookupVar c3Run "e" = some (.vec 3) ∧
    getComponents c3Run 3 = some (.fin 10, .fin 16) ∧
    lookupVar c3Run "f" = some (.vec 4) ∧
    getComponents c3Run 4 = some (.fin 8, .fin 11) ∧
    c3Run.errors = [] :=
  ⟨by decide, by decide, by decide, by decide, by decide, by decide, by decide⟩

def c2Run : RunState :=
  runScript "v = 3 - Vec2(1,2)"

/-- Claim C2 counterexample: evaluating the Operation `3 - Vec2(1,2)`
(scalar 3 minus the vector `(1,2)`) yields the vector `(-2, -1)` —
component minus scalar — not the claimed `(3 − 1, 3 − 2) = (2, 1)`. -/
theorem claim2_scalar_minus_vector_counterexample :
    lookupVar c2Run "v" = some (.vec 2) ∧
    getComponents c2Run 2 = some (.fin (-2), .fin (-1)) ∧
    getComponents c2Run 2 ≠ some (.fin (3 - 1), .fin (3 - 2)) :=
  ⟨by decide, by decide, by decide⟩

/-- Claim C5 (code bug): `parseModifiers` splits with a plain
`split(/,\s*/)` — despite its comment claiming the depth-aware logic of
the assignment split — so the function-form modifier `origin(5,5)` is
torn at the comma inside its argument list, producing the two opaque
`Property` tokens `origin(5` and `5)` instead of one
`PropertyFunction{origin, [5, 5]}`. -/
theorem claim5_modifier_split_bug :
    parseModifiers "origin(5,5)" =
      [.property "origin(5", .property "5)"] ∧
    splitExpression "Vec2(1,1), origin(5,5)" = ("Vec2(1,1)", "origin(5,5)") :=
  ⟨rfl, rfl⟩

def c6Run : RunState :=
  runScript "x.p = 1\na = Vec2(1,2)"

/-- Claim C6 (code bug): executing `x.p = 1` with `x` unbound throws
the engine TypeError from dereferencing
`this.variables['x'].value` — not the guard's
`Variable 'x' is not defined.` — which is recorded in the error list;
the following instruction still executes. -/
theorem claim6_property_modification_unbound_bug :
    c6Run.errors =
      ["Error: x.p = 1 - Cannot read properties of undefined (reading 'value')"] ∧
    c6Run.errors ≠ ["Error: x.p = 1 - Variable 'x' is not defined."] ∧
    lookupVar c6Run "x" = none ∧
    lookupVar c6Run "a" = some (.vec 0) :=
  ⟨by decide, by decide, by decide, by decide⟩

def c8Run : RunState :=
  runScript "b = a + 1"

/-- Claim C8 (confirmed): running the single assignment `b = a + 1`
with no prior definition of `a` produces exactly one evaluation error,
whose text mentions `a`, and leaves the environment without an entry
for `b` (indeed empty). -/
theorem claim8_forward_reference_atomic :
    c8Run.errors = ["Error: b = a + 1 - Variable 'a' is not defined."] ∧
    lookupVar c8Run "b" = none ∧
    c8Run.vars.length = 0 :=
  ⟨by decide, by decide, by decide⟩

/-- Claim C7 (confirmed): whenever both operands of an Operation node
evaluate successfully — to any shapes whatsoever — the operator `/`
makes `evaluateExpression` throw `Unrecognised operator: /`; no
division result is ever produced. -/
theorem claim7_division_unrecognised
    (st st1 st2 : RunState) (l r : Expr) (va vb : RVal)
    (hl : evaluateExpression st l = (.ok va, st1))
    (hr : evaluateExpression st1 r = (.ok vb, st2)) :
    evaluateExpression st (.operation '/' l r) =
      (.error "Unrecognised operator: /", st2) := by
  simp only [evaluateExpression, hl, hr]
  rfl

/-- Witness for C7 at the concrete operands `4 / 2`. -/
theorem claim7_division_unrecognised_witness :
    evaluateExpression {} (.operation '/' (.num (.fin 4)) (.num (.fin 2))) =
      (.error "Unrecognised operator: /", ({} : RunState)) :=
  claim7_division_unrecognised {} {} {} (.num (.fin 4)) (.num (.fin 2))
    (.num (.fin 4)) (.num (.fin 2)) rfl rfl

/-- Claim C9 (confirmed): a trimmed, non-blank, non-comment line that
matches none of the three instruction shapes yields `ok none` from
`parseLine`, and a script consisting of that line alone parses to no
instructions and no log entries — the line is silently dropped. -/
theorem claim9_unmatched_line_silently_dropped
    (line : String)
    (hnl : splitNl line.data = [line.data])
    (htrim : jsTrim line = line)
    (hblank : line ≠ "")
    (hcomment : startsWithComment line = false)
    (hm : matchMethod line.data = none)
    (hp : matchProperty line.data = none)
    (ha : matchAssignment line.data = none) :
    parseLineE line = .ok none ∧
    parse line = { commands := [], log := [] } := by
  have hline : parseLineE line = .ok none := by
    simp only [parseLineE, hm, hp, ha]
  refine ⟨hline, ?_⟩
  have hfl : filteredLines line = [line] := by
    simp only [filteredLines, hnl, List.map_cons, List.map_nil]
    have : jsTrim ⟨line.data⟩ = line := htrim
    rw [this]
    have hb : (line != "") = true := bne_iff_ne.mpr hblank
    simp [List.filter, hb, hcomment]
  simp only [parse, hfl, parseGo, hline]

/-- Witness for C9 at the concrete line `1 2 3` (no instruction shape
matches: no method-call parentheses, no dot, no assignment `=`). -/
theorem claim9_unmatched_line_silently_dropped_witness :
    parseLineE "1 2 3" = .ok none ∧
    parse "1 2 3" = { commands := [], log := [] } :=
  claim9_unmatched_line_silently_dropped "1 2 3" (by decide) (by decide)
    (by decide) (by decide) (by decide) (by decide) (by decide)

/-- Claim C10 (confirmed): `parseValue` returns a number for any
non-identifier token whose leading characters parse as a (finite)
number, trailing garbage notwithstanding — e.g. `3px` evaluates to the
number 3 and `5)` to 5 — and it returns an opaque string only when the
token has no parsable leading numeric prefix and does not match
identifier syntax. -/
theorem claim10_parse_value_numeric_prefix :
    (∀ (s : String) (q : ℚ), isIdentifier s = false → parseFloatC s.data = .fin q →
        parseValue s true = .num (.fin q)) ∧
    (∀ s r : String, parseValue s true = .str r →
        r = s ∧ isIdentifier s = false ∧ parseFloatC s.data = .nan) ∧
    parseValue "3px" true = .num (.fin 3) ∧
    parseValue "5)" true = .num (.fin 5) := by
  refine ⟨?_, ?_, rfl, rfl⟩
  · intro s q hid hq
    simp [parseValue, hid, hq]
  · intro s r h
    cases hq : parseFloatC s.data with
    | nan =>
      by_cases hid : isIdentifier s
      · simp [parseValue, hid, hq] at h
      · simp only [parseValue, hid, hq, Bool.false_eq_true, if_false] at h
        exact ⟨(Expr.str.injEq .. |>.mp h.symm).symm ▸ rfl, by simp [hid], rfl⟩
    | fin q =>
      by_cases hid : isIdentifier s
      · simp only [parseValue, hid, if_true, hq] at h
        split at h <;> simp_all
      · simp [parseValue, hid, hq] at h

/-- Witness for C10, applying the universal part at the token `3px`. -/
theorem claim10_parse_value_numeric_prefix_witness :
    parseValue "3px" true = .num (.fin 3) :=
  claim10_parse_value_numeric_prefix.1 "3px" 3 (by decide) (by decide)

/-- The error log the claim describes, spelled from the claim's words:
one entry per (1-indexed) filtered line whose per-line parsing threw,
formatted by the `Line <n>: \x60<line>\x60 failed. Error: <message>`
template, in line order; non-throwing lines contribute nothing. -/
def logSpecOfLines : List String → Nat → List String
  | [], _ => []
  | l :: rest, n =>
    (match parseLineE l with
     | .error m => [lineErr n l m]
     | .ok _ => []) ++ logSpecOfLines rest (n + 1)

/-- Whether per-line parsing of `l` threw. -/
def parseLineThrew (l : String) : Bool :=
  match parseLineE l with
  | .error _ => true
  | .ok _ => false

theorem parseGo_log (lines : List String) :
    ∀ (i : Nat) (cmds : List Instruction) (log : List String),
      (parseGo lines i cmds log).log = log ++ logSpecOfLines lines (i + 1) := by
  induction lines with
  | nil => intro i cmds log; simp [parseGo, logSpecOfLines]
  | cons l rest ih =>
    intro i cmds log
    simp only [parseGo, logSpecOfLines]
    cases h : parseLineE l with
    | ok o =>
      cases o <;> simp [h, ih]
    | error m =>
      simp [h, ih]

theorem logSpecOfLines_length (lines : List String) :
    ∀ n : Nat, (logSpecOfLines lines n).length =
      (lines.filter parseLineThrew).length := by
  induction lines with
  | nil => intro n; simp [logSpecOfLines]
  | cons l rest ih =>
    intro n
    simp only [logSpecOfLines, List.length_append, ih, List.filter]
    cases h : parseLineE l <;> simp [parseLineThrew, h, Nat.add_comm]

/-- Claim C4 (confirmed): for every input script, `parse` returns a
result (it is total — no exception escapes), whose error log is exactly
one formatted `Line <n>: \x60<line>\x60 failed. Error: <message>` entry for
each non-blank, non-comment line whose per-line parsing threw, in
order; a throwing line never stops parsing of the following lines, and
the log length equals the number of throwing filtered lines. -/
theorem claim4_parse_error_isolation (script : String) :
    (parse script).log = logSpecOfLines (filteredLines script) 1 ∧
    (parse script).log.length =
      ((filteredLines script).filter parseLineThrew).length := by
  have h : (parse script).log = logSpecOfLines (filteredLines script) 1 := by
    have h0 := parseGo_log (filteredLines script) 0 [] []
    simpa [parse] using h0
  exact ⟨h, by rw [h, logSpecOfLines_length]⟩

/-- Witness for C4 at a concrete script with a comment, a blank line
and two instruction lines. -/
theorem claim4_parse_error_isolation_witness :
    (parse "a = Vec2(1,2)\n// note\n\nb = a + 1").log =
      logSpecOfLines (filteredLines "a = Vec2(1,2)\n// note\n\nb = a + 1") 1 ∧
    (parse "a = Vec2(1,2)\n// note\n\nb = a + 1").log.length =
      ((filteredLines "a = Vec2(1,2)\n// note\n\nb = a + 1").filter parseLineThrew).length :=
  claim4_parse_error_isolation "a = Vec2(1,2)\n// note\n\nb = a + 1"

/-! #### Store lemmas for the symbolic scalar−vector subtraction proof -/

theorem getComponents_def (st : RunState) (i : Nat) :
    getComponents st i = (getVec st i).map (fun e => (e.x, e.y)) := rfl

theorem getVec_isLt {st : RunState} {i : Nat} {e : VecEntry}
    (h : getVec st i = some e) : i < st.vecs.length := by
  unfold getVec at h
  exact (List.getElem?_eq_some.mp h).1

theorem getVec_pushVec_self (st : RunState) (x y : JSNum) :
    getVec (pushVec st x y).1 st.vecs.length = some { x := x, y := y } := by
  simp [getVec, pushVec, List.getElem?_concat_length]

theorem getVec_pushVec_lt {st : RunState} {i : Nat} (h : i < st.vecs.length)
    (x y : JSNum) : getVec (pushVec st x y).1 i = getVec st i := by
  simp [getVec, pushVec, List.getElem?_append, h]

theorem length_pushVec (st : RunState) (x y : JSNum) :
    (pushVec st x y).1.vecs.length = st.vecs.length + 1 := by
  simp [pushVec]

theorem length_modifyVec (st : RunState) (i : Nat) (f : VecEntry → VecEntry) :
    (modifyVec st i f).vecs.length = st.vecs.length := by
  show (match st.vecs[i]? with
        | some e => st.vecs.set i (f e)
        | none => st.vecs).length = st.vecs.length
  cases st.vecs[i]? <;> simp [List.length_set]

theorem getVec_modifyVec_self {st : RunState} {i : Nat} {e : VecEntry}
    (h : getVec st i = some e) (f : VecEntry → VecEntry) :
    getVec (modifyVec st i f) i = some (f e) := by
  have hlt : i < st.vecs.length := getVec_isLt h
  unfold getVec at h
  show (match st.vecs[i]? with
        | some e => st.vecs.set i (f e)
        | none => st.vecs)[i]? = some (f e)
  rw [h]
  exact List.getElem?_set_self hlt

theorem getVec_modifyVec_ne {st : RunState} (i : Nat) {j : Nat} (hne : i ≠ j)
    (f : VecEntry → VecEntry) :
    getVec (modifyVec st i f) j = getVec st j := by
  show (match st.vecs[i]? with
        | some e => st.vecs.set i (f e)
        | none => st.vecs)[j]? = st.vecs[j]?
  cases st.vecs[i]? with
  | none => rfl
  | some e => exact List.getElem?_set_ne hne

theorem getComponents_addDerivedEdge (st : RunState) (a b i : Nat) :
    getComponents (addDerivedEdge st a b) i = getComponents st i := rfl

/-- Proof abbreviation: the store after evaluating the
`new Vec2(a, a).scale(-1)` temporary of the scalar−vector branch. -/
def scalarSubTemp (st : RunState) (s : ℚ) : RunState :=
  vecScale (pushVec st (.fin s) (.fin s)).1 st.vecs.length (.fin (-1))

theorem length_scalarSubTemp (st : RunState) (s : ℚ) :
    (scalarSubTemp st s).vecs.length = st.vecs.length + 1 := by
  unfold scalarSubTemp vecScale
  rw [length_modifyVec, length_pushVec]

/-- Definitional unfolding of the scalar−vector case of the `-`
operator in `evalOperation`. -/
theorem evalOperation_scalar_sub_vec (st : RunState) (s : ℚ) (id : Nat) :
    evalOperation st '-' (.num (.fin s)) (.vec id) =
      (.ok (.vec (scalarSubTemp st s).vecs.length),
       addDerivedEdge
         (modifyVec (vecAddNew (scalarSubTemp st s) st.vecs.length id).1
           (scalarSubTemp st s).vecs.length
           (fun e => { e with sourceOp := some ⟨'-', .num (.fin s), .vec id, (scalarSubTemp st s).vecs.length⟩ }))
         id (scalarSubTemp st s).vecs.length) := rfl

theorem getVec_scalarSubTemp_temp (st : RunState) (s : ℚ) :
    getVec (scalarSubTemp st s) st.vecs.length =
      some { x := (JSNum.fin s).mul (.fin (-1)),
             y := (JSNum.fin s).mul (.fin (-1)) } := by
  unfold scalarSubTemp vecScale
  rw [getVec_modifyVec_self (getVec_pushVec_self st (.fin s) (.fin s))]

theorem getVec_scalarSubTemp_of_lt {st : RunState} {i : Nat}
    (h : i < st.vecs.length) (s : ℚ) :
    getVec (scalarSubTemp st s) i = getVec st i := by
  unfold scalarSubTemp vecScale
  rw [getVec_modifyVec_ne st.vecs.length (by omega) _, getVec_pushVec_lt h]

/-- Components and identity of the result of `s - v` (`s` scalar, `v` a
vector with components `(x, y)`): a fresh vector at index
`st.vecs.length + 1` holding `(x − s, y − s)`. -/
theorem scalar_sub_vec_components {st : RunState} {id : Nat} {x y : ℚ} (s : ℚ)
    (hcomp : getComponents st id = some (.fin x, .fin y)) :
    (evalOperation st '-' (.num (.fin s)) (.vec id)).1 =
        .ok (.vec (st.vecs.length + 1)) ∧
    getComponents (evalOperation st '-' (.num (.fin s)) (.vec id)).2
        (st.vecs.length + 1) = some (.fin (x - s), .fin (y - s)) := by
  obtain ⟨e, he, hex, hey⟩ :
      ∃ e, getVec st id = some e ∧ e.x = .fin x ∧ e.y = .fin y := by
    rw [getComponents_def] at hcomp
    cases hv : getVec st id with
    | none => rw [hv] at hcomp; simp at hcomp
    | some e =>
      rw [hv] at hcomp
      simp only [Option.map_some', Option.some.injEq, Prod.mk.injEq] at hcomp
      exact ⟨e, rfl, hcomp.1, hcomp.2⟩
  have hlt : id < st.vecs.length := getVec_isLt he
  have hR : (scalarSubTemp st s).vecs.length = st.vecs.length + 1 :=
    length_scalarSubTemp st s
  rw [evalOperation_scalar_sub_vec]
  constructor
  · show Except.ok (RVal.vec (scalarSubTemp st s).vecs.length) =
      .ok (.vec (st.vecs.length + 1))
    rw [hR]
  · show getComponents
        (addDerivedEdge
          (modifyVec (vecAddNew (scalarSubTemp st s) st.vecs.length id).1
            (scalarSubTemp st s).vecs.length
            (fun e => { e with sourceOp := some ⟨'-', .num (.fin s), .vec id, (scalarSubTemp st s).vecs.length⟩ }))
          id (scalarSubTemp st s).vecs.length)
        (st.vecs.length + 1) = some (.fin (x - s), .fin (y - s))
    rw [getComponents_addDerivedEdge, hR]
    have hC : getVec (vecAddNew (scalarSubTemp st s) st.vecs.length id).1
        (st.vecs.length + 1) =
        some { x := (vecX (scalarSubTemp st s) st.vecs.length).add
                      (vecX (scalarSubTemp st s) id),
               y := (vecY (scalarSubTemp st s) st.vecs.length).add
                      (vecY (scalarSubTemp st s) id) } := by
      unfold vecAddNew
      rw [← hR]
      exact getVec_pushVec_self _ _ _
    rw [getComponents_def, getVec_modifyVec_self hC]
    have hT := getVec_scalarSubTemp_temp st s
    have hI : getVec (scalarSubTemp st s) id = some e := by
      rw [getVec_scalarSubTemp_of_lt hlt]; exact he
    simp only [vecX, vecY, hT, hI, Option.map_some', Option.getD_some,
      hex, hey, JSNum.mul, JSNum.add]
    have e1 : s * (-1) + x = x - s := by ring
    have e2 : s * (-1) + y = y - s := by ring
    rw [e1, e2]

/-- Claim C2, amended: for every Operation with operator `-` whose left
operand evaluates to a scalar `s` and whose right operand evaluates to
a vector with components `(x, y)`, `evaluateExpression` returns a fresh
vector whose components are `(x − s, y − s)` — the scalar is negated
and added to each component (reversed subtraction), not `s − component`
as the original claim stated. -/
theorem claim2_scalar_minus_vector_amended
    (st st1 st2 : RunState) (l r_ : Expr) (s x y : ℚ) (id : Nat)
    (hl : evaluateExpression st l = (.ok (.num (.fin s)), st1))
    (hr : evaluateExpression st1 r_ = (.ok (.vec id), st2))
    (hcomp : getComponents st2 id = some (.fin x, .fin y)) :
    ∃ st' : RunState,
      evaluateExpression st (.operation '-' l r_) =
        (.ok (.vec (st2.vecs.length + 1)), st') ∧
      getComponents st' (st2.vecs.length + 1) =
        some (.fin (x - s), .fin (y - s)) := by
  have hred : evaluateExpression st (.operation '-' l r_) =
      evalOperation st2 '-' (.num (.fin s)) (.vec id) := by
    simp only [evaluateExpression, hl, hr]
  obtain ⟨h1, h2⟩ := scalar_sub_vec_components s hcomp
  refine ⟨(evalOperation st2 '-' (.num (.fin s)) (.vec id)).2, ?_, h2⟩
  rw [hred]
  conv_lhs => rw [show evalOperation st2 '-' (.num (.fin s)) (.vec id) =
    ((evalOperation st2 '-' (.num (.fin s)) (.vec id)).1,
     (evalOperation st2 '-' (.num (.fin s)) (.vec id)).2) from rfl]
  rw [h1]

/-- A one-vector environment binding `w` to the vector `(1, 2)`, for
the C2 witness. -/
def c2WitnessState : RunState :=
  { vecs := [{ x := .fin 1, y := .fin 2 }],
    vars := [("w", { value := .vec 0, properties := {}, instruction := { type := 2 } })] }

/-- Witness for the amended C2 at `3 - w` with `w = (1, 2)`: the result
is the fresh vector `(1 − 3, 2 − 3) = (−2, −1)`. -/
theorem claim2_scalar_minus_vector_witness :
    ∃ st' : RunState,
      evaluateExpression c2WitnessState (.operation '-' (.num (.fin 3)) (.ref "w")) =
        (.ok (.vec (c2WitnessState.vecs.length + 1)), st') ∧
      getComponents st' (c2WitnessState.vecs.length + 1) =
        some (.fin (1 - 3), .fin (2 - 3)) :=
  claim2_scalar_minus_vector_amended c2WitnessState c2WitnessState c2WitnessState
    (.num (.fin 3)) (.ref "w") 3 1 2 0 rfl rfl (by decide)

end ClaimTheorems
